import Mathlib

/-!
# Verification of the gzap middleware package

A shallow embedding of the `gzap` package (a zap logging / panic recovery
middleware pair for the Gin web framework), together with proofs about the
behaviour of its `Logger` and `Recovery` middlewares, its functional options
and its default configuration.

The embedding follows the package source. External dependencies (the Gin
context, the zap logger, and the Go standard library's `mime`, `httputil` and
`runtime/debug` helpers) are modelled by explicit data types and small
functions; each such model carries a doc comment saying what it stands for.
Go byte slices and strings are both modelled as Lean `String`s (lengths agree
on the byte strings the middleware manipulates).
-/

namespace Gzap

/-- Model of `zapcore.Level` from go.uber.org/zap (external dependency). -/
inductive Level where
  | debug
  | info
  | warn
  | error
  | dpanicLevel
  | panicLevel
  | fatal
deriving DecidableEq, Repr

/-- Model of a Go `error` recorded on the Gin context (`c.Errors`): the
`Error()` text. -/
abbrev GoErr := String

/-- Model of the panic value observed by `recover()` in the Recovery
middleware, as far as the middleware inspects it:
* `opError syscallMsg msg`: the value is a `*net.OpError` whose `Error()`
  text is `msg`; `syscallMsg = some m` when its `Err` field is a
  `*os.SyscallError` whose `Error()` text is `m`, `none` otherwise;
* `other msg`: any other panic value, rendered as `msg`. -/
inductive PanicValue where
  | opError (syscallMsg : Option String) (msg : String)
  | other (msg : String)
deriving DecidableEq, Repr

/-- The `Error()` text of a panic value, used by `c.Error(err.(error))`. -/
def PanicValue.errMsg : PanicValue → String
  | .opError _ m => m
  | .other m => m

/-- Model of a `zap.Field` (external dependency), restricted to the
constructors the package uses: `zap.Int`, `zap.String`, `zap.Duration`,
`zap.Any`, `zap.ByteString` and `zap.Error`. The duration value is opaque
(wall-clock latency is not modelled). -/
inductive Field where
  | int (key : String) (v : Int)
  | str (key : String) (v : String)
  | dur (key : String)
  | anyv (key : String) (v : PanicValue)
  | bytes (key : String) (v : String)
  | err (e : GoErr)
deriving DecidableEq, Repr

/-- One record emitted through the injected `*zap.Logger`. -/
structure LogRecord where
  level : Level
  msg : String
  fields : List Field
deriving DecidableEq, Repr

/-- Model of the parts of `*http.Request` the package reads. The `body`
field holds what a full read of `Request.Body` yields: either the remaining
readable bytes or a read error. -/
structure Request where
  method : String
  path : String
  rawQuery : String
  userAgent : String
  contentType : String
  body : Except String String
deriving Repr

/-- Model of the parts of `*gin.Context` the package reads and writes.
`writerStatus` is `c.Writer.Status()` (the status gin currently holds);
`sentStatus` is the status actually written to the wire (`none` before the
response header is written); `written` accumulates the bytes written to the
response writer. -/
structure Ctx where
  request : Request
  writerStatus : Nat
  sentStatus : Option Nat
  errors : List GoErr
  aborted : Bool
  fullPath : String
  clientIP : String
  written : String
deriving Repr

/-- Model of `c.Abort()`. -/
def Ctx.abort (c : Ctx) : Ctx := { c with aborted := true }

/-- Model of `c.Error(err)`: appends to `c.Errors`. -/
def Ctx.addError (c : Ctx) (e : GoErr) : Ctx := { c with errors := c.errors ++ [e] }

/-- Model of `c.String(code, msg)` (external dependency, gin): sets the
status, writes the header if it was not written yet, and writes the body. -/
def Ctx.stringResp (c : Ctx) (code : Nat) (msg : String) : Ctx :=
  { c with
    writerStatus := code
    sentStatus := match c.sentStatus with | some s => some s | none => some code
    written := c.written ++ msg }

/-- Model of `c.AbortWithStatus(code)` (external dependency, gin): sets the
status, writes the header now if it was not written yet, and aborts. -/
def Ctx.abortWithStatus (c : Ctx) (code : Nat) : Ctx :=
  { c with
    writerStatus := code
    sentStatus := match c.sentStatus with | some s => some s | none => some code
    aborted := true }

/-- Model of `io.ReadAll(c.Request.Body)` followed by `Close`: on success it
returns the bytes and the drained request (a further read yields nothing). -/
def readAllBody (r : Request) : Except String (String × Request) :=
  match r.body with
  | .error e => .error e
  | .ok bs => .ok (bs, { r with body := .ok "" })

/-- ASCII lowercasing, model of `strings.ToLower` (external dependency) on
the ASCII error texts the middleware inspects. -/
def strToLower (s : String) : String := ⟨s.data.map Char.toLower⟩

/-- Split a character list on a separator (like `strings.Split`). -/
def splitChars (sep : Char) : List Char → List (List Char)
  | [] => [[]]
  | ch :: rest =>
    let r := splitChars sep rest
    if ch = sep then [] :: r
    else
      match r with
      | [] => [[ch]]
      | h :: t => (ch :: h) :: t

/-- Strip leading and trailing spaces. -/
def trimChars (l : List Char) : List Char :=
  ((l.dropWhile (· = ' ')).reverse.dropWhile (· = ' ')).reverse

/-- Substring test on character lists: `pat` occurs inside `l`. -/
def charsHaveSub : List Char → List Char → Bool
  | _, [] => true
  | [], pat => pat.isEmpty
  | l@(_ :: tl), pat => pat.isPrefixOf l || charsHaveSub tl pat

/-- Model of `strings.Contains s pat` (external dependency). -/
def strContainsSub (s pat : String) : Bool := charsHaveSub s.toList pat.toList

/-! ## Field indices and configuration

`FieldStatus .. FieldResponseBody` are the `iota` constants of the package;
`fieldMaxLen` closes the enumeration. -/

def FieldStatus : Int := 0
def FieldMethod : Int := 1
def FieldPath : Int := 2
def FieldRoute : Int := 3
def FieldQuery : Int := 4
def FieldIP : Int := 5
def FieldUserAgent : Int := 6
def FieldLatency : Int := 7
def FieldRequestBody : Int := 8
def FieldResponseBody : Int := 9
def fieldMaxLen : Int := 10

/-- The `Config` struct of the package. Go function-typed fields are nilable,
so each callback slot is an `Option`; `none` models a nil callback. The
`field` list holds the ten log field labels (`[fieldMaxLen]string`). -/
structure Config where
  customFields : List (Ctx → Field)
  skipLogging : Option (Ctx → Bool)
  skipRequestBody : Option (Ctx → Bool)
  skipResponseBody : Option (Ctx → Bool)
  useLoggerLevel : Option (Ctx → Level)
  enableBody : Bool
  limit : Int
  field : List String

/-- `WithCustomFields` option. -/
def WithCustomFields (fields : List (Ctx → Field)) : Config → Config :=
  fun c => { c with customFields := fields }

/-- `WithSkipLogging` option: `if f != nil { c.skipLogging = f }`. -/
def WithSkipLogging (f : Option (Ctx → Bool)) : Config → Config :=
  fun c =>
    match f with
    | some g => { c with skipLogging := some g }
    | none => c

/-- `WithEnableBody` option. -/
def WithEnableBody (b : Bool) : Config → Config :=
  fun c => { c with enableBody := b }

/-- `WithBodyLimit` option. -/
def WithBodyLimit (limit : Int) : Config → Config :=
  fun c => { c with limit := limit }

/-- `WithSkipRequestBody` option: `if f != nil { c.skipRequestBody = f }`. -/
def WithSkipRequestBody (f : Option (Ctx → Bool)) : Config → Config :=
  fun c =>
    match f with
    | some g => { c with skipRequestBody := some g }
    | none => c

/-- `WithSkipResponseBody` option: `if f != nil { c.skipResponseBody = f }`. -/
def WithSkipResponseBody (f : Option (Ctx → Bool)) : Config → Config :=
  fun c =>
    match f with
    | some g => { c with skipResponseBody := some g }
    | none => c

/-- `WithUseLoggerLevel` option: `if f != nil { c.useLoggerLevel = f }`. -/
def WithUseLoggerLevel (f : Option (Ctx → Level)) : Config → Config :=
  fun c =>
    match f with
    | some g => { c with useLoggerLevel := some g }
    | none => c

/-- `WithFieldName` option:
`if index > 0 && index < fieldMaxLen && name != "" { c.field[index] = name }`. -/
def WithFieldName (index : Int) (name : String) : Config → Config :=
  fun c =>
    if 0 < index ∧ index < fieldMaxLen ∧ name ≠ "" then
      { c with field := c.field.set index.toNat name }
    else c

/-- The public option constructors of the package, as data: every `Option`
value a caller can build with the package API is the image of one of these. -/
inductive GOption where
  | customFields (fields : List (Ctx → Field))
  | skipLogging (f : Option (Ctx → Bool))
  | enableBody (b : Bool)
  | bodyLimit (l : Int)
  | skipRequestBody (f : Option (Ctx → Bool))
  | skipResponseBody (f : Option (Ctx → Bool))
  | useLoggerLevel (f : Option (Ctx → Level))
  | fieldName (i : Int) (n : String)

/-- Interpretation of a public option constructor as the `func(c *Config)`
it returns. -/
def GOption.applyTo : GOption → Config → Config
  | .customFields fs, c => WithCustomFields fs c
  | .skipLogging f, c => WithSkipLogging f c
  | .enableBody b, c => WithEnableBody b c
  | .bodyLimit l, c => WithBodyLimit l c
  | .skipRequestBody f, c => WithSkipRequestBody f c
  | .skipResponseBody f, c => WithSkipResponseBody f c
  | .useLoggerLevel f, c => WithUseLoggerLevel f c
  | .fieldName i n, c => WithFieldName i n c

/-- The option application loop `for _, opt := range opts { opt(&cfg) }`. -/
def applyOpts (opts : List GOption) (c : Config) : Config :=
  opts.foldl (fun c o => o.applyTo c) c

/-! ## HTTP status constants (net/http, external dependency) -/

def StatusBadRequest : Nat := 400
def StatusUnavailableForLegalReasons : Nat := 451
def StatusInternalServerError : Nat := 500
def StatusNetworkAuthenticationRequired : Nat := 511

/-- Model of `mime.ParseMediaType` from the Go standard library (external
dependency), to the extent the package uses it: the lowercased, trimmed media
type before any `;`, plus the list of parameter keys; `none` models a parse
error (in particular on an empty header). -/
def parseMediaType (v : String) : Option (String × List String) :=
  match splitChars ';' v.data with
  | [] => none
  | mt :: ps =>
    let d : String := ⟨(trimChars mt).map Char.toLower⟩
    if d = "" then none
    else
      some (d, ps.map fun p =>
        (⟨(trimChars ((splitChars '=' p).headD [])).map Char.toLower⟩ : String))

/-- The package-level `skipRequestBody` predicate: skip multipart bodies that
carry a `boundary` parameter. -/
def skipRequestBody (c : Ctx) : Bool :=
  match parseMediaType c.request.contentType with
  | none => false
  | some (d, params) =>
    if ¬(d = "multipart/form-data" ∨ d = "multipart/mixed") then false
    else params.contains "boundary"

/-- The package-level `skipResponseBody` predicate (a stub in the source:
always report "do not skip"). -/
def skipResponseBody (_ : Ctx) : Bool := false

/-- The package-level default `useLoggerLevel` selector. -/
def useLoggerLevel (c : Ctx) : Level :=
  let status := c.writerStatus
  if StatusInternalServerError ≤ status ∧ status ≤ StatusNetworkAuthenticationRequired then
    .error
  else if StatusBadRequest ≤ status ∧ status ≤ StatusUnavailableForLegalReasons then
    .warn
  else .info

/-- `newConfig()`: the defaults every middleware installation starts from. -/
def newConfig : Config where
  customFields := []
  skipLogging := some fun _ => false
  skipRequestBody := some fun _ => false
  skipResponseBody := some fun _ => false
  useLoggerLevel := some useLoggerLevel
  enableBody := false
  limit := 0
  field := ["status", "method", "path", "route", "query", "ip",
            "user-agent", "latency", "requestBody", "responseBody"]

/-- Array access `cfg.field[i]` (the code only indexes with the constants
above, all in range). -/
def fieldAt (cfg : Config) (i : Int) : String := cfg.field.getD i.toNat ""

/-! ## The Logger middleware

The downstream part of the chain (`c.Next()`) is abstracted as a
`HandlerEff`: the bytes it writes through the (possibly wrapped) response
writer, the errors it records on the context, and the status it leaves in
the writer. When body capture is enabled the `bodyWriter` wrapper duplicates
every downstream write into the request-local builder, so the builder's
final content is exactly `writes`. -/

structure HandlerEff where
  writes : String
  errs : List GoErr
  status : Nat
deriving Repr

/-- Effect of `c.Next()` on the context. Writing a non-empty body causes the
response header (with the handler's status) to go out if it had not yet. -/
def Ctx.runHandler (c : Ctx) (h : HandlerEff) : Ctx :=
  { c with
    written := c.written ++ h.writes
    errors := c.errors ++ h.errs
    writerStatus := h.status
    sentStatus :=
      match c.sentStatus with
      | some s => some s
      | none => if h.writes = "" then none else some h.status }

/-- Result of the Logger's pre-`Next` phase: either proceed into the chain
carrying the `reqBody` display string, or abort before `c.Next()` and before
the deferred log function is installed. -/
inductive PreResult where
  | proceed (c : Ctx) (reqBody : String)
  | abortReq (c : Ctx)
deriving Repr

/-- The body-handling phase of the Logger handler (source lines before
`start := time.Now()`). Invoking a nil callback is a Go crash, modelled as
`none`; `newConfig` plus the public options never leaves a nil slot. -/
def loggerPre (cfg : Config) (c : Ctx) : Option PreResult :=
  if cfg.enableBody then
    match cfg.skipRequestBody with
    | none => none
    | some f =>
      if skipRequestBody c || f c then
        some (.proceed c "skip request body")
      else
        match readAllBody c.request with
        | .error e =>
          -- c.String(http.StatusInternalServerError, err.Error()); c.Abort(); return
          some (.abortReq ((c.stringResp StatusInternalServerError e).abort))
        | .ok (reqBodyBuf, drained) =>
          -- c.Request.Body = io.NopCloser(bytes.NewBuffer(reqBodyBuf))
          let c1 : Ctx := { c with request := { drained with body := .ok reqBodyBuf } }
          let reqBody :=
            if 0 < cfg.limit ∧ cfg.limit ≤ (reqBodyBuf.length : Int) then
              "larger request body"
            else reqBodyBuf
          some (.proceed c1 reqBody)
  else
    some (.proceed c "skip request body")

/-- A full run of one Logger handler invocation: final context, the log
records emitted through the injected logger, and whether `c.Next()` ran. -/
structure LoggerOut where
  ctx : Ctx
  records : List LogRecord
  nextInvoked : Bool
deriving Repr

/-- The level the deferred log function chooses: error level when any
request-scoped error was recorded, else the configured selector (`none`
models invoking a nil selector). -/
def deferLevel (cfg : Config) (c : Ctx) : Option Level :=
  if 0 < c.errors.length then some .error
  else
    match cfg.useLoggerLevel with
    | some g => some (g c)
    | none => none

/-- The request/response body fields of the summary record when body capture
is enabled (`builder` is the final content of the duplicating writer's
buffer), the empty list otherwise. -/
def deferBodyFields (cfg : Config) (reqBody builder : String) (c : Ctx) :
    Option (List Field) :=
  if cfg.enableBody then
    match cfg.skipResponseBody with
    | none => none
    | some rf =>
      let respBody :=
        if skipResponseBody c || rf c then "skip response body"
        else if 0 < cfg.limit ∧ cfg.limit ≤ (builder.length : Int) then
          "larger response body"
        else builder
      some [.str (fieldAt cfg FieldRequestBody) reqBody,
            .str (fieldAt cfg FieldResponseBody) respBody]
  else some []

/-- The deferred func literal installed after the body phase (the summary
log): given the saved `reqBody`/`path`/`query`, the builder content and the
post-`Next` context, the records it emits (`[]` when skipped, `none` on a
nil callback invocation). -/
def loggerDefer (cfg : Config) (reqBody path query builder : String) (c : Ctx) :
    Option (List LogRecord) :=
  match cfg.skipLogging with
  | none => none
  | some skipf =>
    if skipf c then some []
    else
      match deferLevel cfg c with
      | none => none
      | some level =>
        let baseFields : List Field := [
          .int (fieldAt cfg FieldStatus) (c.writerStatus : Int),
          .str (fieldAt cfg FieldMethod) c.request.method,
          .str (fieldAt cfg FieldPath) path,
          .str (fieldAt cfg FieldRoute) c.fullPath,
          .str (fieldAt cfg FieldQuery) query,
          .str (fieldAt cfg FieldIP) c.clientIP,
          .str (fieldAt cfg FieldUserAgent) c.request.userAgent,
          .dur (fieldAt cfg FieldLatency)]
        match deferBodyFields cfg reqBody builder c with
        | none => none
        | some bodyFields =>
          let custom := cfg.customFields.map fun f => f c
          let errFields := if 0 < c.errors.length then c.errors.map Field.err else []
          some [⟨level, "logging", baseFields ++ bodyFields ++ custom ++ errFields⟩]

/-- One invocation of the handler returned by `Logger(logger, opts...)`,
with the option loop already folded into `cfg`. Mirrors the source: body
phase, saving `path`/`query`, `c.Next()`, then the deferred summary log.
The builder passed to the deferred function holds the downstream writes
duplicated by the `bodyWriter` wrapper. -/
def loggerRun (cfg : Config) (h : HandlerEff) (c0 : Ctx) : Option LoggerOut :=
  match loggerPre cfg c0 with
  | none => none
  | some (.abortReq c) => some ⟨c, [], false⟩
  | some (.proceed c1 reqBody) =>
    let path := c1.request.path
    let query := c1.request.rawQuery
    let c2 := c1.runHandler h
    match loggerDefer cfg reqBody path query h.writes c2 with
    | none => none
    | some recs => some ⟨c2, recs, true⟩

/-! ## The Recovery middleware -/

/-- Outcome of running a piece of the chain: it either returns normally or
unwinds with a panic value. -/
inductive Outcome where
  | normal (c : Ctx)
  | panicked (v : PanicValue) (c : Ctx)

/-- The context carried by an outcome. -/
def Outcome.ctx : Outcome → Ctx
  | .normal c => c
  | .panicked _ c => c

def Outcome.isPanicked : Outcome → Bool
  | .normal _ => false
  | .panicked _ _ => true

/-- Model of `runtime/debug.Stack()` (external dependency): an opaque
goroutine stack dump. -/
def debugStack : String := "goroutine stack"

/-- Model of `httputil.DumpRequest(c.Request, false)` (external dependency):
request line and headers, no body. -/
def dumpRequest (r : Request) : String :=
  r.method ++ " " ++ r.path ++ "?" ++ r.rawQuery ++ " HTTP/1.1\r\n" ++
    "User-Agent: " ++ r.userAgent ++ "\r\nContent-Type: " ++ r.contentType ++ "\r\n\r\n"

/-- The broken-connection classification inside Recovery's deferred guard:
the panic value is a `*net.OpError` wrapping a `*os.SyscallError` whose text
contains "broken pipe" or "connection reset by peer". -/
def isBrokenPipe : PanicValue → Bool
  | .opError (some se) _ =>
    strContainsSub (strToLower se) "broken pipe" ||
      strContainsSub (strToLower se) "connection reset by peer"
  | _ => false

/-- The configuration assembled by `Recovery(logger, stack, opts...)`: the
options fold, then the stack dump custom field when `stack` is set. -/
def recoveryConfig (stack : Bool) (opts : List GOption) : Config :=
  let cfg := applyOpts opts newConfig
  if stack then
    { cfg with customFields := cfg.customFields ++ [fun _ => Field.bytes "stack" debugStack] }
  else cfg

/-- One invocation of the handler returned by `Recovery(logger, stack,
opts...)`: run downstream under the deferred `recover()` guard, and on panic
classify, log and abort. The first component is the outcome the caller of
this middleware observes. -/
def recoveryRun (cfg : Config) (next : Ctx → Outcome) (c0 : Ctx) :
    Outcome × List LogRecord :=
  match next c0 with
  | .normal c => (.normal c, [])
  | .panicked v c =>
    let httpRequest := dumpRequest c.request
    if isBrokenPipe v then
      -- logger.Error(path, error, request); c.Error(err.(error)); c.Abort(); return
      (.normal ((c.addError v.errMsg).abort),
       [⟨.error, c.request.path, [.anyv "error" v, .bytes "request" httpRequest]⟩])
    else
      let fields := [Field.anyv "error" v, Field.bytes "request" httpRequest] ++
        cfg.customFields.map fun f => f c
      (.normal (c.abortWithStatus StatusInternalServerError),
       [⟨.error, "recovery from panic", fields⟩])

/-! ## Concrete fixtures used by witnesses and counterexamples -/

/-- A plain GET request with a readable body. -/
def pingReq : Request := ⟨"GET", "/ping", "a=1", "ua", "", .ok "hello"⟩

/-- A fresh per-request context for `pingReq`. -/
def pingCtx : Ctx := ⟨pingReq, 200, none, [], false, "/ping", "1.2.3.4", ""⟩

/-- A downstream handler that writes "pong" and succeeds. -/
def pongEff : HandlerEff := ⟨"pong", [], 200⟩

/-- A `*net.OpError` wrapping a `*os.SyscallError` with a broken-pipe text:
classified as a broken connection. -/
def bpPanicVal : PanicValue := .opError (some "write: broken pipe") "write tcp: broken pipe"

/-- An ordinary panic value (not a broken connection). -/
def genPanicVal : PanicValue := .other "An unexpected error happen!"

/-! ## Theorems -/

/-- A failing request body (reading it yields an error). -/
def readFailReq : Request := ⟨"GET", "/p", "", "ua", "", .error "read fail"⟩

/-- A fresh per-request context for `readFailReq`. -/
def readFailCtx : Ctx := ⟨readFailReq, 200, none, [], false, "/p", "ip", ""⟩

/-- The deferred summary emits no record when the skip predicate matches the
final context and exactly one record otherwise. -/
theorem loggerDefer_length (cfg : Config) (sl : Ctx → Bool)
    (reqBody path query builder : String) (c : Ctx) (recs : List LogRecord)
    (hsl : cfg.skipLogging = some sl)
    (hrun : loggerDefer cfg reqBody path query builder c = some recs) :
    recs.length = if sl c then 0 else 1 := by
  simp only [loggerDefer, hsl] at hrun
  by_cases hs : sl c
  · simp only [hs, if_true] at hrun ⊢
    cases hrun
    rfl
  · simp only [hs, if_false, Bool.false_eq_true] at hrun ⊢
    cases hlv : deferLevel cfg c with
    | none => rw [hlv] at hrun; cases hrun
    | some level =>
      rw [hlv] at hrun
      cases hbf : deferBodyFields cfg reqBody builder c with
      | none => rw [hbf] at hrun; cases hrun
      | some bodyFields =>
        rw [hbf] at hrun
        cases hrun
        rfl

/-- C1, as stated, is false on the code: with body capture enabled and a
request whose body read fails, the configuration's skip-logging predicate
returns false for every request, yet the Logger handler emits no record
(the early return happens before the deferred log function is installed). -/
theorem c1_counterexample :
    (WithEnableBody true newConfig).skipLogging = some (fun _ => false) ∧
    (loggerRun (WithEnableBody true newConfig) pongEff readFailCtx).map LoggerOut.records
      = some [] := ⟨rfl, by decide⟩

/-- C1 (amended): whenever a Logger run completes without the body phase
aborting (so downstream was invoked), it emits exactly one summary record if
the skip-logging predicate returns false on the final context and none if it
returns true; when the body phase aborts, no record is emitted. -/
theorem c1_one_summary_record (cfg : Config) (sl : Ctx → Bool)
    (h : HandlerEff) (c0 : Ctx) (r : LoggerOut)
    (hsl : cfg.skipLogging = some sl)
    (hrun : loggerRun cfg h c0 = some r) :
    (r.nextInvoked = true → r.records.length = if sl r.ctx then 0 else 1) ∧
    (r.nextInvoked = false → r.records = []) := by
  simp only [loggerRun] at hrun
  split at hrun
  · cases hrun
  · cases hrun
    exact ⟨fun hx => Bool.noConfusion hx, fun _ => rfl⟩
  · rename_i c1 reqBody heqpre
    split at hrun
    · cases hrun
    · rename_i recs heqdef
      cases hrun
      refine ⟨fun _ => ?_, fun hx => Bool.noConfusion hx⟩
      exact loggerDefer_length cfg sl reqBody c1.request.path c1.request.rawQuery
        h.writes (c1.runHandler h) recs hsl heqdef

/-- The output of a Logger run on the `pingCtx` fixture. -/
def pingOut : LoggerOut := (loggerRun newConfig pongEff pingCtx).getD ⟨pingCtx, [], false⟩

/-- Witness for the amended C1 at a concrete request and handler. -/
theorem c1_one_summary_record_witness :
    (pingOut.nextInvoked = true →
      pingOut.records.length = if (fun _ => false : Ctx → Bool) pingOut.ctx then 0 else 1) ∧
    (pingOut.nextInvoked = false → pingOut.records = []) :=
  c1_one_summary_record newConfig (fun _ => false) pongEff pingCtx pingOut rfl rfl

/-- C2: For every panic value raised by a downstream handler, the Recovery
middleware's deferred guard recovers it, so no panic propagates past Recovery
to the caller: whatever outcome the downstream part of the chain has, the
outcome observed by Recovery's caller is never a panic. -/
theorem c2_no_panic_propagates (cfg : Config) (next : Ctx → Outcome) (c0 : Ctx) :
    (recoveryRun cfg next c0).1.isPanicked = false := by
  unfold recoveryRun
  cases next c0 with
  | normal c => rfl
  | panicked v c =>
    by_cases hb : isBrokenPipe v = true <;> simp [hb, Outcome.isPanicked]

/-- C3: In the Recovery middleware, a panic classified as broken pipe never
causes a status code to be written (the wire status is exactly what it was
when the panic unwound), while every panic not so classified causes status
500 to be written, absent an earlier write. -/
theorem c3_broken_pipe_status (cfg : Config) (next : Ctx → Outcome) (c0 : Ctx)
    (v : PanicValue) (c : Ctx) (h : next c0 = .panicked v c) :
    (isBrokenPipe v = true →
      (recoveryRun cfg next c0).1.ctx.sentStatus = c.sentStatus) ∧
    (isBrokenPipe v = false → c.sentStatus = none →
      (recoveryRun cfg next c0).1.ctx.sentStatus = some StatusInternalServerError) := by
  unfold recoveryRun
  rw [h]
  constructor
  · intro hb
    simp [hb, Outcome.ctx, Ctx.addError, Ctx.abort]
  · intro hb hs
    simp [hb, Outcome.ctx, Ctx.abortWithStatus, hs]

/-- Witness for C3 at a concrete broken-pipe panic inside a concrete
request. -/
theorem c3_broken_pipe_status_witness :
    (isBrokenPipe bpPanicVal = true →
      (recoveryRun newConfig (fun c => .panicked bpPanicVal c) pingCtx).1.ctx.sentStatus
        = pingCtx.sentStatus) ∧
    (isBrokenPipe bpPanicVal = false → pingCtx.sentStatus = none →
      (recoveryRun newConfig (fun c => .panicked bpPanicVal c) pingCtx).1.ctx.sentStatus
        = some StatusInternalServerError) :=
  c3_broken_pipe_status newConfig (fun c => .panicked bpPanicVal c) pingCtx
    bpPanicVal pingCtx rfl

/-- With a configured level selector, the deferred level computation always
yields a level: error when request-scoped errors exist, the selector's value
otherwise. -/
theorem deferLevel_isSome (cfg : Config) (lvlf : Ctx → Level) (c : Ctx)
    (hlvl : cfg.useLoggerLevel = some lvlf) :
    deferLevel cfg c = some (if 0 < c.errors.length then Level.error else lvlf c) := by
  simp only [deferLevel, hlvl]
  by_cases he : 0 < c.errors.length <;> simp [he]

/-- The successful body phase: writer wrapped, body read and restored,
`reqBody` truncated to the placeholder when at or over a positive limit. -/
theorem loggerPre_ok (cfg : Config) (srb : Ctx → Bool) (c0 : Ctx) (bs : String)
    (hen : cfg.enableBody = true)
    (hsrb : cfg.skipRequestBody = some srb)
    (hskip1 : skipRequestBody c0 = false)
    (hskip2 : srb c0 = false)
    (hbody : c0.request.body = .ok bs) :
    loggerPre cfg c0 = some (.proceed
      { c0 with request := { c0.request with body := .ok bs } }
      (if 0 < cfg.limit ∧ cfg.limit ≤ (bs.length : Int) then
        "larger request body" else bs)) := by
  simp only [loggerPre, hen, hsrb, hskip1, hskip2, if_true, Bool.or_self,
    Bool.false_eq_true, if_false, readAllBody, hbody]

/-- C4: with body capture enabled, when the request body is not skipped and
reading it fails, the Logger handler responds 500 (`c.String`), aborts, does
not invoke downstream and emits no record. -/
theorem c4_body_read_failure (cfg : Config) (srb : Ctx → Bool) (h : HandlerEff)
    (c0 : Ctx) (e : String)
    (hen : cfg.enableBody = true)
    (hsrb : cfg.skipRequestBody = some srb)
    (hskip1 : skipRequestBody c0 = false)
    (hskip2 : srb c0 = false)
    (hbody : c0.request.body = .error e)
    (hsent : c0.sentStatus = none) :
    loggerRun cfg h c0 =
      some ⟨(c0.stringResp StatusInternalServerError e).abort, [], false⟩ ∧
    ((c0.stringResp StatusInternalServerError e).abort).sentStatus
      = some StatusInternalServerError ∧
    ((c0.stringResp StatusInternalServerError e).abort).aborted = true := by
  have hpre : loggerPre cfg c0 =
      some (.abortReq ((c0.stringResp StatusInternalServerError e).abort)) := by
    simp only [loggerPre, hen, hsrb, hskip1, hskip2, if_true, Bool.or_self,
      Bool.false_eq_true, if_false, readAllBody, hbody]
  refine ⟨?_, ?_, rfl⟩
  · simp only [loggerRun, hpre]
  · simp only [Ctx.stringResp, Ctx.abort, hsent]

/-- Witness for C4: a concrete request whose body read fails. -/
theorem c4_body_read_failure_witness :
    loggerRun (WithEnableBody true newConfig) pongEff readFailCtx =
      some ⟨(readFailCtx.stringResp StatusInternalServerError "read fail").abort, [], false⟩ ∧
    ((readFailCtx.stringResp StatusInternalServerError "read fail").abort).sentStatus
      = some StatusInternalServerError ∧
    ((readFailCtx.stringResp StatusInternalServerError "read fail").abort).aborted = true :=
  c4_body_read_failure (WithEnableBody true newConfig) (fun _ => false) pongEff
    readFailCtx "read fail" rfl rfl (by decide) rfl rfl rfl

/-- C5: with body capture enabled, a positive size limit, and both bodies
longer than the limit (and nothing skipped), the emitted record's
requestBody and responseBody fields hold the fixed placeholder strings, not
the body contents. -/
theorem c5_limit_placeholder (cfg : Config) (sl srb rf : Ctx → Bool)
    (lvlf : Ctx → Level) (h : HandlerEff) (c0 : Ctx) (bs : String)
    (hen : cfg.enableBody = true)
    (hsl : cfg.skipLogging = some sl) (hslF : ∀ c, sl c = false)
    (hsrb : cfg.skipRequestBody = some srb)
    (hrf : cfg.skipResponseBody = some rf) (hrfF : ∀ c, rf c = false)
    (hlvl : cfg.useLoggerLevel = some lvlf)
    (hskip1 : skipRequestBody c0 = false) (hskip2 : srb c0 = false)
    (hbody : c0.request.body = .ok bs)
    (hlim : 0 < cfg.limit)
    (hreq : cfg.limit < (bs.length : Int))
    (hresp : cfg.limit < (h.writes.length : Int)) :
    ∃ cOut rec, loggerRun cfg h c0 = some ⟨cOut, [rec], true⟩ ∧
      rec.fields.get? 8 =
        some (.str (fieldAt cfg FieldRequestBody) "larger request body") ∧
      rec.fields.get? 9 =
        some (.str (fieldAt cfg FieldResponseBody) "larger response body") := by
  have hcr : 0 < cfg.limit ∧ cfg.limit ≤ (bs.length : Int) := ⟨hlim, le_of_lt hreq⟩
  have hcw : 0 < cfg.limit ∧ cfg.limit ≤ (h.writes.length : Int) := ⟨hlim, le_of_lt hresp⟩
  have hpre := loggerPre_ok cfg srb c0 bs hen hsrb hskip1 hskip2 hbody
  rw [if_pos hcr] at hpre
  simp only [loggerRun, hpre]
  simp only [loggerDefer, hsl, hslF, Bool.false_eq_true, if_false,
    deferLevel_isSome cfg lvlf _ hlvl, deferBodyFields, hen, if_true, hrf,
    skipResponseBody, hrfF, Bool.or_self]
  rw [if_pos hcw]
  refine ⟨_, _, rfl, ?_, ?_⟩ <;> rfl

/-- Witness for C5: limit 3, request body "hello", response body "abcde". -/
theorem c5_limit_placeholder_witness :
    ∃ cOut rec,
      loggerRun (WithBodyLimit 3 (WithEnableBody true newConfig)) ⟨"abcde", [], 200⟩ pingCtx
        = some ⟨cOut, [rec], true⟩ ∧
      rec.fields.get? 8 =
        some (.str (fieldAt (WithBodyLimit 3 (WithEnableBody true newConfig)) FieldRequestBody)
          "larger request body") ∧
      rec.fields.get? 9 =
        some (.str (fieldAt (WithBodyLimit 3 (WithEnableBody true newConfig)) FieldResponseBody)
          "larger response body") :=
  c5_limit_placeholder (WithBodyLimit 3 (WithEnableBody true newConfig))
    (fun _ => false) (fun _ => false) (fun _ => false) useLoggerLevel
    ⟨"abcde", [], 200⟩ pingCtx "hello"
    rfl rfl (fun _ => rfl) rfl rfl (fun _ => rfl) rfl (by decide) rfl rfl
    (by decide) (by decide) (by decide)

/-- C8: with body capture enabled and the body read succeeding, the Logger
body phase restores the request body as a re-readable copy: a downstream
read yields exactly the original byte sequence. -/
theorem c8_body_round_trip (cfg : Config) (srb : Ctx → Bool) (c0 : Ctx) (bs : String)
    (hen : cfg.enableBody = true)
    (hsrb : cfg.skipRequestBody = some srb)
    (hskip1 : skipRequestBody c0 = false)
    (hskip2 : srb c0 = false)
    (hbody : c0.request.body = .ok bs) :
    ∃ c1 rb, loggerPre cfg c0 = some (.proceed c1 rb) ∧
      ∃ r2, readAllBody c1.request = .ok (bs, r2) := by
  simp only [loggerPre, hen, hsrb, hskip1, hskip2, if_true, Bool.or_self,
    Bool.false_eq_true, if_false, readAllBody, hbody]
  exact ⟨_, _, rfl, _, rfl⟩

/-- Witness for C8: the concrete body "hello" survives the read-then-restore
round trip. -/
theorem c8_body_round_trip_witness :
    ∃ c1 rb, loggerPre (WithEnableBody true newConfig) pingCtx = some (.proceed c1 rb) ∧
      ∃ r2, readAllBody c1.request = .ok ("hello", r2) :=
  c8_body_round_trip (WithEnableBody true newConfig) (fun _ => false) pingCtx "hello"
    rfl rfl (by decide) rfl rfl

/-- When the deferred summary emits a single record, its level is error if
any request-scoped error was recorded, and the configured selector's value
otherwise. -/
theorem loggerDefer_level (cfg : Config) (lvlf : Ctx → Level)
    (reqBody path query builder : String) (c : Ctx) (recs : List LogRecord)
    (rec : LogRecord)
    (hlvl : cfg.useLoggerLevel = some lvlf)
    (hrun : loggerDefer cfg reqBody path query builder c = some recs)
    (hrec : recs = [rec]) :
    rec.level = if 0 < c.errors.length then Level.error else lvlf c := by
  subst hrec
  cases hsl : cfg.skipLogging with
  | none => simp [loggerDefer, hsl] at hrun
  | some skipf =>
    simp only [loggerDefer, hsl] at hrun
    by_cases hs : skipf c
    · simp [hs] at hrun
    · simp only [hs, Bool.false_eq_true, if_false] at hrun
      rw [deferLevel_isSome cfg lvlf c hlvl] at hrun
      cases hbf : deferBodyFields cfg reqBody builder c with
      | none => rw [hbf] at hrun; cases hrun
      | some bf =>
        rw [hbf] at hrun
        simp only [Option.some.injEq, List.cons.injEq, and_true] at hrun
        subst hrun
        rfl

/-- A downstream handler recording status 520. -/
def status520Eff : HandlerEff := ⟨"x", [], 520⟩

/-- C6, as stated, is false on the code: the default selector returns error
only for statuses 500..511, not for every 5xx status. On a run whose final
status is 520 (a 5xx status) with no recorded errors, the emitted record's
level is info, not error. -/
theorem c6_counterexample :
    (loggerRun newConfig status520Eff pingCtx).map (fun r => r.records.map LogRecord.level)
      = some [Level.info] ∧
    500 ≤ 520 ∧ 520 ≤ 599 ∧ Level.info ≠ Level.error :=
  ⟨by decide, by decide, by decide, by decide⟩

/-- C6 (amended): the default selector chooses error level exactly for
statuses 500..511, warn exactly for 400..451, and info otherwise; and in a
Logger run that emits a record, the record's level is error whenever any
request-scoped error was recorded, else the configured selector's value. -/
theorem c6_level_selection :
    (∀ c : Ctx, useLoggerLevel c =
      if 500 ≤ c.writerStatus ∧ c.writerStatus ≤ 511 then Level.error
      else if 400 ≤ c.writerStatus ∧ c.writerStatus ≤ 451 then Level.warn
      else Level.info) ∧
    (∀ (cfg : Config) (lvlf : Ctx → Level) (h : HandlerEff) (c0 : Ctx)
      (r : LoggerOut) (rec : LogRecord),
      cfg.useLoggerLevel = some lvlf →
      loggerRun cfg h c0 = some r →
      r.records = [rec] →
      rec.level = if 0 < r.ctx.errors.length then Level.error else lvlf r.ctx) := by
  constructor
  · intro c; rfl
  · intro cfg lvlf h c0 r rec hlvl hrun hrec
    simp only [loggerRun] at hrun
    split at hrun
    · cases hrun
    · cases hrun; simp at hrec
    · rename_i c1 reqBody hpre
      split at hrun
      · cases hrun
      · rename_i recs hdef
        cases hrun
        exact loggerDefer_level cfg lvlf reqBody c1.request.path c1.request.rawQuery
          h.writes (c1.runHandler h) recs rec hlvl hdef hrec

/-- A downstream handler recording two request-scoped errors. -/
def errsEff : HandlerEff := ⟨"x", ["An error happen 1", "An error happen 2"], 200⟩

/-- The output of a Logger run whose handler records errors. -/
def errsOut : LoggerOut := (loggerRun newConfig errsEff pingCtx).getD ⟨pingCtx, [], false⟩

/-- The single record of that run. -/
def errsRec : LogRecord := errsOut.records.headD ⟨.info, "", []⟩

/-- Witness for the amended C6: with recorded errors the level is error. -/
theorem c6_level_selection_witness :
    errsRec.level =
      if 0 < errsOut.ctx.errors.length then Level.error else useLoggerLevel errsOut.ctx :=
  c6_level_selection.2 newConfig useLoggerLevel errsEff pingCtx errsOut errsRec
    rfl rfl rfl

/-- A custom field usable as a marker in records. -/
def customMark : Ctx → Field := fun _ => .str "custom" "v"

/-- A configuration carrying one custom field. -/
def markCfg : Config := WithCustomFields [customMark] newConfig

/-- C7, as stated, is false on the code: in the broken-pipe branch the
configured custom fields are NOT attached — the record holds only the error
and the request dump. -/
theorem c7_counterexample :
    (recoveryRun markCfg (fun c => .panicked bpPanicVal c) pingCtx).2 =
      [⟨.error, "/ping",
        [.anyv "error" bpPanicVal, .bytes "request" (dumpRequest pingReq)]⟩] ∧
    Field.str "custom" "v" ∉
      ((recoveryRun markCfg (fun c => .panicked bpPanicVal c) pingCtx).2.headD
        ⟨.info, "", []⟩).fields :=
  ⟨by decide, by decide⟩

/-- C7 (amended): the configured custom fields are attached to the emitted
error record in the generic-panic branch only; the broken-pipe branch logs
just the panic value and the request dump. -/
theorem c7_custom_fields_generic_only (cfg : Config) (next : Ctx → Outcome)
    (c0 : Ctx) (v : PanicValue) (c : Ctx) (h : next c0 = .panicked v c) :
    (isBrokenPipe v = true →
      (recoveryRun cfg next c0).2 =
        [⟨.error, c.request.path,
          [.anyv "error" v, .bytes "request" (dumpRequest c.request)]⟩]) ∧
    (isBrokenPipe v = false →
      (recoveryRun cfg next c0).2 =
        [⟨.error, "recovery from panic",
          [Field.anyv "error" v, Field.bytes "request" (dumpRequest c.request)] ++
            cfg.customFields.map fun f => f c⟩]) := by
  unfold recoveryRun
  rw [h]
  constructor <;> intro hb <;> simp [hb]

/-- Witness for the amended C7 at a concrete generic panic: the custom field
of `markCfg` appears in the record. -/
theorem c7_custom_fields_generic_only_witness :
    (isBrokenPipe genPanicVal = true →
      (recoveryRun markCfg (fun c => .panicked genPanicVal c) pingCtx).2 =
        [⟨.error, pingCtx.request.path,
          [.anyv "error" genPanicVal,
           .bytes "request" (dumpRequest pingCtx.request)]⟩]) ∧
    (isBrokenPipe genPanicVal = false →
      (recoveryRun markCfg (fun c => .panicked genPanicVal c) pingCtx).2 =
        [⟨.error, "recovery from panic",
          [Field.anyv "error" genPanicVal,
           Field.bytes "request" (dumpRequest pingCtx.request)] ++
            markCfg.customFields.map fun f => f pingCtx⟩]) :=
  c7_custom_fields_generic_only markCfg (fun c => .panicked genPanicVal c) pingCtx
    genPanicVal pingCtx rfl

/-- C9: the claim that all 10 log field labels are renameable is contradicted
by the code: `WithFieldName` guards with `index > 0`, so index 0
(`FieldStatus`) is silently not renameable — although the function's own doc
comment demonstrates exactly `WithFieldName(gzap.FieldStatus,
"httpStatusCode")`. Indices 1 through 9 are renameable (third conjunct shows
index 1), so the `> 0` guard is a slip for `>= 0`. -/
theorem c9_field_zero_not_renameable :
    WithFieldName FieldStatus "httpStatusCode" newConfig = newConfig ∧
    (WithFieldName FieldStatus "httpStatusCode" newConfig).field.getD 0 "" = "status" ∧
    (WithFieldName FieldMethod "httpMethod" newConfig).field.getD 1 "" = "httpMethod" := by
  refine ⟨?_, ?_, ?_⟩ <;> rfl

/-- C10: passing a nil function to `WithSkipLogging`, `WithSkipRequestBody`,
`WithSkipResponseBody`, or `WithUseLoggerLevel` leaves the configuration
unchanged (hence the default callback from `newConfig` in place), and after
folding any list of public options over `newConfig` every callback slot is
non-nil, so the middleware never invokes a nil callback. -/
theorem c10_nil_callbacks_ignored :
    (∀ cfg : Config,
      WithSkipLogging none cfg = cfg ∧
      WithSkipRequestBody none cfg = cfg ∧
      WithSkipResponseBody none cfg = cfg ∧
      WithUseLoggerLevel none cfg = cfg) ∧
    (∀ opts : List GOption,
      (applyOpts opts newConfig).skipLogging.isSome = true ∧
      (applyOpts opts newConfig).skipRequestBody.isSome = true ∧
      (applyOpts opts newConfig).skipResponseBody.isSome = true ∧
      (applyOpts opts newConfig).useLoggerLevel.isSome = true) := by
  constructor
  · intro cfg
    exact ⟨rfl, rfl, rfl, rfl⟩
  · intro opts
    suffices hgen : ∀ (opts : List GOption) (cfg : Config),
        cfg.skipLogging.isSome = true → cfg.skipRequestBody.isSome = true →
        cfg.skipResponseBody.isSome = true → cfg.useLoggerLevel.isSome = true →
        (applyOpts opts cfg).skipLogging.isSome = true ∧
        (applyOpts opts cfg).skipRequestBody.isSome = true ∧
        (applyOpts opts cfg).skipResponseBody.isSome = true ∧
        (applyOpts opts cfg).useLoggerLevel.isSome = true by
      exact hgen opts newConfig rfl rfl rfl rfl
    intro opts
    induction opts with
    | nil => intro cfg h1 h2 h3 h4; exact ⟨h1, h2, h3, h4⟩
    | cons o rest ih =>
      intro cfg h1 h2 h3 h4
      have step : (o.applyTo cfg).skipLogging.isSome = true ∧
          (o.applyTo cfg).skipRequestBody.isSome = true ∧
          (o.applyTo cfg).skipResponseBody.isSome = true ∧
          (o.applyTo cfg).useLoggerLevel.isSome = true := by
        cases o with
        | customFields fs => exact ⟨h1, h2, h3, h4⟩
        | skipLogging f =>
          cases f with
          | none => exact ⟨h1, h2, h3, h4⟩
          | some g => exact ⟨rfl, h2, h3, h4⟩
        | enableBody b => exact ⟨h1, h2, h3, h4⟩
        | bodyLimit l => exact ⟨h1, h2, h3, h4⟩
        | skipRequestBody f =>
          cases f with
          | none => exact ⟨h1, h2, h3, h4⟩
          | some g => exact ⟨h1, rfl, h3, h4⟩
        | skipResponseBody f =>
          cases f with
          | none => exact ⟨h1, h2, h3, h4⟩
          | some g => exact ⟨h1, h2, rfl, h4⟩
        | useLoggerLevel f =>
          cases f with
          | none => exact ⟨h1, h2, h3, h4⟩
          | some g => exact ⟨h1, h2, h3, rfl⟩
        | fieldName i n =>
          unfold GOption.applyTo WithFieldName
          by_cases hc : 0 < i ∧ i < fieldMaxLen ∧ n ≠ "" <;> simp [hc] <;>
            exact ⟨h1, h2, h3, h4⟩
      exact ih (o.applyTo cfg) step.1 step.2.1 step.2.2.1 step.2.2.2

end Gzap
